import Mathlib

/-!
Shallow embedding of the `fasttext-ts` language detector (worker pool,
dispatcher/queue, result cache, option post-processing), translated from
`src/worker.ts`, `src/detector.ts`, `src/cache.ts` and `src/types.ts`.

Numbers: JavaScript numbers are modelled as `ℚ` (confidences, thresholds,
running averages) and `ℤ` (timestamps); the one place where `NaN` actually
arises in the code — `parseFloat` on a non-numeric token — is modelled by
`Option ℚ` with `none` standing for `NaN`, and comparisons against `NaN`
are `false`, as in JavaScript.  Strings are modelled through their
character lists; the handful of JavaScript string primitives the code uses
(`split(/\s+/)`, `replace` with a string pattern = first occurrence,
`replace` with a global char regex, `trim`, `toLowerCase`, `substring`,
`parseFloat`) are given explicit executable models below.
-/

/-- Model of splitting on the regex `\s+` (JavaScript `String.split(/\s+/)`):
maximal whitespace runs separate fields, a leading or trailing run produces an
empty field, and the empty string yields `[""]`.  The `skipping` flag is true
while consuming a separator run. -/
def jsSplitWsAux : List Char → Bool → List Char → List String
  | [], skipping, acc => if skipping then [""] else [String.mk acc.reverse]
  | c :: rest, skipping, acc =>
    if skipping then
      if c.isWhitespace then jsSplitWsAux rest true []
      else jsSplitWsAux rest false [c]
    else
      if c.isWhitespace then String.mk acc.reverse :: jsSplitWsAux rest true []
      else jsSplitWsAux rest false (c :: acc)

def jsSplitWs (s : String) : List String := jsSplitWsAux s.data false []

/-- Model of JavaScript `String.replace(pat, '')` with a string pattern:
only the first occurrence of `pat` is removed. -/
def removeFirstOcc (pat : List Char) : List Char → List Char
  | [] => []
  | c :: rest =>
    if pat.isPrefixOf (c :: rest) then (c :: rest).drop pat.length
    else c :: removeFirstOcc pat rest

def jsReplaceFirst (s pat : String) : String := String.mk (removeFirstOcc pat.data s.data)

/-- Model of JavaScript `String.replace(/a/g, b)` for a single-character
global pattern: every occurrence of `a` becomes `b`. -/
def replaceChar (a b : Char) (l : List Char) : List Char :=
  l.map (fun c => if c = a then b else c)

def jsTrimChars (l : List Char) : List Char :=
  ((l.dropWhile Char.isWhitespace).reverse.dropWhile Char.isWhitespace).reverse

/-- Model of JavaScript `String.trim()`. -/
def jsTrim (s : String) : String := String.mk (jsTrimChars s.data)

/-- Model of JavaScript `String.toLowerCase()`; `Char.toLower` covers the
ASCII range, which is all the classifier's labels use. -/
def jsToLower (s : String) : String := String.mk (s.data.map Char.toLower)

/-- Consumes leading decimal digits, returning their value, their count and
the remaining characters. -/
def parseDigitsAux : List Char → ℕ → ℕ → ℕ × ℕ × List Char
  | [], acc, cnt => (acc, cnt, [])
  | c :: rest, acc, cnt =>
    if c.isDigit then parseDigitsAux rest (10 * acc + (c.toNat - 48)) (cnt + 1)
    else (acc, cnt, c :: rest)

def parseDigits (l : List Char) : ℕ × ℕ × List Char := parseDigitsAux l 0 0

/-- Syntactic pieces of a decimal literal: `value = sign * (intPart +
fracPart / 10^fracDigits) * 10^exp`. -/
structure FloatParts where
  sign : ℤ
  intPart : ℕ
  fracPart : ℕ
  fracDigits : ℕ
  exp : ℤ
deriving DecidableEq

/-- Parsing phase of ECMAScript `parseFloat` on a token: skip leading
whitespace, an optional sign, then the longest prefix of the form
`digits [. digits] [e|E [sign] digits]`; `none` (JavaScript `NaN`) when no
digit is consumed.  The `Infinity` literal branch is omitted: the classifier
never produces it and no claim touches it. -/
def jsParseFloatParts (s : String) : Option FloatParts :=
  let l0 := s.data.dropWhile Char.isWhitespace
  let sl : ℤ × List Char :=
    match l0 with
    | '-' :: rest => (-1, rest)
    | '+' :: rest => (1, rest)
    | _ => (1, l0)
  let ip := parseDigits sl.2
  let fp : ℕ × ℕ × List Char :=
    match ip.2.2 with
    | '.' :: rest => parseDigits rest
    | _ => (0, 0, ip.2.2)
  if ip.2.1 = 0 ∧ fp.2.1 = 0 then none
  else
    let expPart : ℤ :=
      match fp.2.2 with
      | 'e' :: rest | 'E' :: rest =>
        let er : ℤ × List Char :=
          match rest with
          | '-' :: r => (-1, r)
          | '+' :: r => (1, r)
          | _ => (1, rest)
        let ed := parseDigits er.2
        if ed.2.1 = 0 then 0 else er.1 * (ed.1 : ℤ)
      | _ => 0
    some ⟨sl.1, ip.1, fp.1, fp.2.1, expPart⟩

/-- Numeric value of parsed float pieces. -/
def floatVal (p : FloatParts) : ℚ :=
  (p.sign : ℚ) * ((p.intPart : ℚ) + (p.fracPart : ℚ) / (10 : ℚ) ^ p.fracDigits) *
    (10 : ℚ) ^ p.exp

/-- Model of ECMAScript `parseFloat`; `none` models `NaN`. -/
def jsParseFloat (s : String) : Option ℚ :=
  (jsParseFloatParts s).map floatVal

/-- `LanguagePrediction` from `types.ts`; `confidence = none` models a `NaN`
confidence, and `languageName` is the optional field the detector's
`includeLanguageName` post-processing adds. -/
structure LanguagePrediction where
  language : String
  confidence : Option ℚ
  languageName : Option String
deriving DecidableEq

/-- `DetectionResult` from `types.ts` (`primary = none` models `null`). -/
structure DetectionResult where
  predictions : List LanguagePrediction
  primary : Option LanguagePrediction
deriving DecidableEq

/-- Loop body of `FastTextWorker.parseResult` (`worker.ts`): tokens are taken
two at a time as label/confidence; a pair is kept only when both tokens are
non-empty strings (the `if (label && confidence)` truthiness guard); the first
occurrence of `__label__` is removed from the label, it is lower-cased, `zh`
is remapped to `chs`, and the confidence token goes through `parseFloat`. -/
def parsePairs : List String → List LanguagePrediction
  | label :: conf :: rest =>
    (if label = "" ∨ conf = "" then []
     else
       let languageCode := jsToLower (jsReplaceFirst label "__label__")
       [{ language := if languageCode = "zh" then "chs" else languageCode,
          confidence := jsParseFloat conf,
          languageName := none }]) ++ parsePairs rest
  | _ => []

/-- `FastTextWorker.parseResult` from `worker.ts`. -/
def parseResult (result : String) : List LanguagePrediction :=
  parsePairs (jsSplitWs result)

/-- Cache entry from `cache.ts`: stored result plus stored-at timestamp. -/
structure CacheEntry where
  result : DetectionResult
  timestamp : ℤ
deriving DecidableEq

/-- JavaScript `Map.get`: value of the first (unique) entry with this key. -/
def jsMapGet (m : List (String × CacheEntry)) (k : String) : Option CacheEntry :=
  match m.find? (fun p => decide (p.1 = k)) with
  | some p => some p.2
  | none => none

/-- JavaScript `Map.set`: an existing key keeps its insertion position and gets
the new value; a new key is appended at the back of the insertion order. -/
def jsMapSet (m : List (String × CacheEntry)) (k : String) (v : CacheEntry) :
    List (String × CacheEntry) :=
  if m.any (fun p => decide (p.1 = k)) then
    m.map (fun p => if p.1 = k then (k, v) else p)
  else m ++ [(k, v)]

/-- JavaScript `Map.delete`: removes the (first) entry with this key. -/
def jsMapDelete (m : List (String × CacheEntry)) (k : String) :
    List (String × CacheEntry) :=
  match m with
  | [] => []
  | p :: rest => if p.1 = k then rest else p :: jsMapDelete rest k

/-- `DetectionCache` from `cache.ts`: a JavaScript `Map` in insertion order,
with a capacity bound and a TTL in milliseconds. -/
structure DetectionCache where
  cache : List (String × CacheEntry)
  maxSize : ℕ
  ttl : ℤ
deriving DecidableEq

/-- `DetectionCache.get`: a hit requires presence and freshness
(`now - timestamp ≤ ttl`); an expired entry is deleted on read. -/
def DetectionCache.get (c : DetectionCache) (now : ℤ) (text : String) :
    Option DetectionResult × DetectionCache :=
  match jsMapGet c.cache text with
  | none => (none, c)
  | some entry =>
    if c.ttl < now - entry.timestamp then (none, { c with cache := jsMapDelete c.cache text })
    else (some entry.result, c)

/-- `DetectionCache.set` from `cache.ts`: when `size ≥ maxSize`, the first
inserted key is deleted — the `if (firstKey)` truthiness guard skips the
deletion when the map is empty (`undefined`) or the oldest key is the empty
string (falsy) — then the entry is inserted with the current timestamp. -/
def DetectionCache.set (c : DetectionCache) (now : ℤ) (text : String)
    (result : DetectionResult) : DetectionCache :=
  let cache1 :=
    if c.maxSize ≤ c.cache.length then
      match c.cache.head? with
      | some p => if p.1 = "" then c.cache else jsMapDelete c.cache p.1
      | none => c.cache
    else c.cache
  { c with cache := jsMapSet cache1 text ⟨result, now⟩ }

/-- Worker state from `worker.ts` (`FastTextWorker`): the process handle is
abstracted to a liveness flag, which also stands for the
`process.stdin/stdout` availability check. -/
structure FastTextWorker where
  id : ℕ
  isReady : Bool
  isBusy : Bool
  processedRequests : ℕ
  processAlive : Bool
deriving DecidableEq

/-- Notifications a worker can emit to its owner (`WorkerEvents` in
`worker.ts`); the detector's `load()` wires `restartWorker` to exactly
the error and exit events. -/
inductive WorkerSignal where
  | errorSig
  | exitSig
  | readySig
deriving DecidableEq

/-- The signals `FastTextLanguageDetector.load` subscribes to with
`void this.restartWorker(i)` (detector.ts, the `worker.on('error')` and
`worker.on('exit')` handlers). -/
def restartTriggeringSignals : List WorkerSignal :=
  [WorkerSignal.errorSig, WorkerSignal.exitSig]

def triggersRestart (signals : List WorkerSignal) : Bool :=
  signals.any (fun s => decide (s ∈ restartTriggeringSignals))

/-- Error kinds a worker call can produce (`worker.ts`). -/
inductive WorkerError where
  | notReady (id : ℕ)
  | busy (id : ℕ)
  | streamsUnavailable (id : ℕ)
  | timeout (id : ℕ)
  | writeError (id : ℕ)
  | startFailure (id : ℕ)
deriving DecidableEq

/-- Which of the racing continuations inside `FastTextWorker.detect` fires:
the per-request timer, the single stdout `data` listener, or the stdin write
callback reporting an error. -/
inductive DetectEvent where
  | timeoutFired
  | dataArrives
  | writeFailed
deriving DecidableEq

/-- Input sanitization in `FastTextWorker.detect`: line breaks become spaces,
the text is trimmed and capped at 5000 units (modelled per character; the
UTF-16 code-unit/character difference is immaterial to the claims). -/
def sanitizeText (text : String) : String :=
  String.mk ((jsTrimChars (replaceChar '\r' ' ' (replaceChar '\n' ' ' text.data))).take 5000)

/-- One full request/response round-trip of the external process as seen by
`FastTextWorker.detect` when the output line arrives: `oracle` maps the
written (sanitized) line to the raw stdout data, which is trimmed and parsed;
`primary` is the first prediction or `null`. -/
def workerOutput (oracle : String → String) (text : String) : DetectionResult :=
  let result := jsTrim (oracle (sanitizeText text))
  let predictions := parseResult result
  { predictions := predictions, primary := predictions.head? }

/-- `FastTextWorker.detect` from `worker.ts`: the not-ready / busy / missing
streams guards fail without touching the process; otherwise `isBusy` is set
and the call resolves according to which continuation fires first.  A timeout
rejects, clears `isBusy`, and leaves the process and `processedRequests`
untouched; arriving data clears `isBusy`, bumps `processedRequests` and
resolves with the parsed result; a write error rejects and clears `isBusy`.
The third component lists the worker events emitted during the call —
`detect` emits none (only `start`'s process handlers emit). -/
def FastTextWorker.detect (w : FastTextWorker) (oracle : String → String)
    (text : String) (ev : DetectEvent) :
    Except WorkerError DetectionResult × FastTextWorker × List WorkerSignal :=
  if w.isReady = false then (Except.error (WorkerError.notReady w.id), w, [])
  else if w.isBusy then (Except.error (WorkerError.busy w.id), w, [])
  else if w.processAlive = false then (Except.error (WorkerError.streamsUnavailable w.id), w, [])
  else
    match ev with
    | DetectEvent.timeoutFired =>
      (Except.error (WorkerError.timeout w.id), { w with isBusy := false }, [])
    | DetectEvent.dataArrives =>
      (Except.ok (workerOutput oracle text),
       { w with isBusy := false, processedRequests := w.processedRequests + 1 }, [])
    | DetectEvent.writeFailed =>
      (Except.error (WorkerError.writeError w.id), { w with isBusy := false }, [])

/-- `PoolStatistics` from `types.ts`. -/
structure PoolStatistics where
  totalRequests : ℕ
  completedRequests : ℕ
  failedRequests : ℕ
  queuedRequests : ℕ
  averageResponseTime : ℚ
  poolSize : ℕ
  activeWorkers : ℕ
  busyWorkers : ℕ
  idleWorkers : ℕ
  queueLength : ℕ
deriving DecidableEq

def initialStats : PoolStatistics :=
  { totalRequests := 0, completedRequests := 0, failedRequests := 0,
    queuedRequests := 0, averageResponseTime := 0, poolSize := 0,
    activeWorkers := 0, busyWorkers := 0, idleWorkers := 0, queueLength := 0 }

/-- `QueuedRequest` from `detector.ts`; the resolve/reject callback pair is
identified by `reqId`, and completions are reported against that id. -/
structure QueuedRequest where
  text : String
  reqId : ℕ
  startTime : ℤ
deriving DecidableEq

/-- Error kinds `detect`/queue handling can produce (`detector.ts`). -/
inductive DetectorError where
  | notLoaded
  | queueFull (maxQueueSize : ℕ)
  | shuttingDown
  | alreadyLoading
  | workerFailure (e : WorkerError)
deriving DecidableEq

/-- Settling of one caller's pending promise. -/
inductive Completion where
  | resolved (reqId : ℕ) (result : DetectionResult)
  | rejected (reqId : ℕ) (error : DetectorError)
deriving DecidableEq

/-- `FastTextLanguageDetector` state (`detector.ts`). -/
structure FastTextLanguageDetector where
  poolSize : ℕ
  maxQueueSize : ℕ
  timeout : ℤ
  workers : List FastTextWorker
  requestQueue : List QueuedRequest
  isLoaded : Bool
  isLoading : Bool
  stats : PoolStatistics
  cache : Option DetectionCache
deriving DecidableEq

/-- `DetectorOptions` from `types.ts` (the fields the pool engine reads). -/
structure DetectorOptions where
  poolSize : Option ℕ
  maxQueueSize : Option ℕ
  timeout : Option ℤ
  cache : Bool
  cacheSize : Option ℕ
  cacheTTL : Option ℤ
deriving DecidableEq

/-- JavaScript `options.x || dflt` for a numeric option: `undefined` and the
falsy `0` both fall back to the default. -/
def jsOrDefaultN (v : Option ℕ) (dflt : ℕ) : ℕ :=
  match v with
  | some n => if n = 0 then dflt else n
  | none => dflt

def jsOrDefaultZ (v : Option ℤ) (dflt : ℤ) : ℤ :=
  match v with
  | some n => if n = 0 then dflt else n
  | none => dflt

/-- The `FastTextLanguageDetector` constructor (defaults 3 / 500 / 5000;
cache 1000 entries / 3600000 ms TTL when enabled). -/
def mkDetector (options : DetectorOptions) : FastTextLanguageDetector :=
  { poolSize := jsOrDefaultN options.poolSize 3,
    maxQueueSize := jsOrDefaultN options.maxQueueSize 500,
    timeout := jsOrDefaultZ options.timeout 5000,
    workers := [],
    requestQueue := [],
    isLoaded := false,
    isLoading := false,
    stats := initialStats,
    cache :=
      if options.cache then
        some { cache := [], maxSize := jsOrDefaultN options.cacheSize 1000,
               ttl := jsOrDefaultZ options.cacheTTL 3600000 }
      else none }

/-- A worker is available when ready and not busy
(`getAvailableWorker`'s predicate). -/
def availableWorker (w : FastTextWorker) : Bool := w.isReady && !w.isBusy

/-- Index of the first available worker (`Array.prototype.find` order),
mirroring `getAvailableWorker` which returns the worker object itself. -/
def findAvailIdx : List FastTextWorker → Option ℕ
  | [] => none
  | w :: ws => if availableWorker w then some 0 else (findAvailIdx ws).map (· + 1)

def FastTextLanguageDetector.getAvailableWorkerIdx (d : FastTextLanguageDetector) : Option ℕ :=
  findAvailIdx d.workers

/-- Pointwise update of the element at one position. -/
def updateAt (i : ℕ) (f : FastTextWorker → FastTextWorker) :
    List FastTextWorker → List FastTextWorker
  | [] => []
  | w :: ws =>
    match i with
    | 0 => f w :: ws
    | Nat.succ n => w :: updateAt n f ws

/-- Dispatching a request to a worker marks it busy: `executeRequest` runs
`worker.detect`, whose synchronous prologue sets `isBusy` before the call
suspends. -/
def markBusy (w : FastTextWorker) : FastTextWorker := { w with isBusy := true }

/-- Loop body of `processQueue` over (workers, `stats.queuedRequests`, queue):
while the queue is non-empty and an available worker exists, the front request
is shifted, the queued-requests counter is decremented, and the request is
dispatched (worker marked busy).  Returns the final workers, counter and queue
plus the dispatched (worker index, request) pairs in dispatch order. -/
def processQueueAux :
    List FastTextWorker → ℕ → List QueuedRequest →
    List FastTextWorker × ℕ × List QueuedRequest × List (ℕ × QueuedRequest)
  | ws, qr, [] => (ws, qr, [], [])
  | ws, qr, req :: rest =>
    match findAvailIdx ws with
    | none => (ws, qr, req :: rest, [])
    | some i =>
      let r := processQueueAux (updateAt i markBusy ws) (qr - 1) rest
      (r.1, r.2.1, r.2.2.1, (i, req) :: r.2.2.2)

/-- `processQueue` from `detector.ts`. -/
def FastTextLanguageDetector.processQueue (d : FastTextLanguageDetector) :
    FastTextLanguageDetector × List (ℕ × QueuedRequest) :=
  let r := processQueueAux d.workers d.stats.queuedRequests d.requestQueue
  ({ d with workers := r.1, requestQueue := r.2.2.1,
            stats := { d.stats with queuedRequests := r.2.1 } }, r.2.2.2)

/-- Worker-side state change when its in-flight request settles: arriving
data clears `isBusy` and bumps `processedRequests`; a failure (timeout, write
error) clears `isBusy` only (`worker.ts`). -/
inductive WorkerOutcome where
  | success (raw : DetectionResult)
  | failure (e : WorkerError)
deriving DecidableEq

def completeWorkerState (o : WorkerOutcome) (w : FastTextWorker) : FastTextWorker :=
  match o with
  | WorkerOutcome.success _ =>
    { w with isBusy := false, processedRequests := w.processedRequests + 1 }
  | WorkerOutcome.failure _ => { w with isBusy := false }

/-- Statistics update in `executeRequest` after `worker.detect` settles:
on success the completed counter is bumped and the response time is folded
into the running mean; on failure the failed counter is bumped. -/
def completeStats (st : PoolStatistics) (o : WorkerOutcome) (responseTime : ℚ) :
    PoolStatistics :=
  match o with
  | WorkerOutcome.success _ =>
    let completed := st.completedRequests + 1
    { st with completedRequests := completed,
              averageResponseTime :=
                (st.averageResponseTime * ((completed - 1 : ℕ) : ℚ) + responseTime) /
                  (completed : ℚ) }
  | WorkerOutcome.failure _ => { st with failedRequests := st.failedRequests + 1 }

/-- Settling of the request running on worker `i` (`executeRequest` after the
`await`): the worker's busy flag has been cleared by `worker.detect`, the
statistics are updated, the caller's promise is settled, and `processQueue`
drains the queue onto any freed workers.  Returns the new state and the
requests the drain dispatched. -/
def FastTextLanguageDetector.workerCompletes (d : FastTextLanguageDetector) (i : ℕ)
    (o : WorkerOutcome) (responseTime : ℚ) :
    FastTextLanguageDetector × List (ℕ × QueuedRequest) :=
  FastTextLanguageDetector.processQueue
    { d with workers := updateAt i (completeWorkerState o) d.workers,
             stats := completeStats d.stats o responseTime }

/-- `DetectionOptions` from `types.ts`.  `returnAll` is an `Option Bool`
because the code distinguishes `undefined` from `false`
(`options.returnAll === false`); `topK` keeps its JavaScript number sign. -/
structure DetectionOptions where
  threshold : Option ℚ
  topK : Option ℤ
  includeLanguageName : Bool
  returnAll : Option Bool
deriving DecidableEq

def noOptions : DetectionOptions := ⟨none, none, false, none⟩

/-- JavaScript `p.confidence >= threshold`: comparisons against `NaN`
(modelled `none`) are false. -/
def jsGeConfidence (c : Option ℚ) (t : ℚ) : Bool :=
  match c with
  | some x => decide (t ≤ x)
  | none => false

/-- `applyOptions` from `detector.ts`: threshold filter, then top-K
truncation (`options.topK && options.topK > 0` — `0` is falsy and negative
values fail the `> 0` test), then language-name enrichment (`getLanguageName`
is the external name-lookup collaborator, passed as `g`), then the
only-primary collapse (`options.returnAll === false && result.primary`);
the returned `primary` is the first surviving prediction or `null`. -/
def applyOptions (g : String → String) (result : DetectionResult)
    (options : DetectionOptions) : DetectionResult :=
  let predictions := result.predictions
  let predictions :=
    match options.threshold with
    | some t => predictions.filter (fun p => jsGeConfidence p.confidence t)
    | none => predictions
  let predictions :=
    match options.topK with
    | some k => if 0 < k then predictions.take k.toNat else predictions
    | none => predictions
  let predictions :=
    if options.includeLanguageName then
      predictions.map (fun p => { p with languageName := some (g p.language) })
    else predictions
  let predictions :=
    if options.returnAll = some false then
      match result.primary with
      | some pr => [pr]
      | none => predictions
    else predictions
  { predictions := predictions, primary := predictions.head? }

/-- Threshold-filter stage of the option pipeline, in isolation. -/
def thresholdStage (options : DetectionOptions) (ps : List LanguagePrediction) :
    List LanguagePrediction :=
  match options.threshold with
  | some t => ps.filter (fun p => jsGeConfidence p.confidence t)
  | none => ps

/-- Top-K truncation stage of the option pipeline, in isolation. -/
def topKStage (options : DetectionOptions) (ps : List LanguagePrediction) :
    List LanguagePrediction :=
  match options.topK with
  | some k => if 0 < k then ps.take k.toNat else ps
  | none => ps

/-- Language-name enrichment stage of the option pipeline, in isolation. -/
def nameStage (g : String → String) (options : DetectionOptions)
    (ps : List LanguagePrediction) : List LanguagePrediction :=
  if options.includeLanguageName then
    ps.map (fun p => { p with languageName := some (g p.language) })
  else ps

/-- Only-primary collapse stage of the option pipeline, in isolation; it
reads the original result's `primary`, not the filtered list. -/
def collapseStage (primary : Option LanguagePrediction) (options : DetectionOptions)
    (ps : List LanguagePrediction) : List LanguagePrediction :=
  if options.returnAll = some false then
    match primary with
    | some pr => [pr]
    | none => ps
  else ps

/-- Cache lookup step of `detect`: when no cache is configured nothing is
read or written; otherwise `DetectionCache.get` runs (and may delete an
expired entry). -/
def cacheGetOpt (oc : Option DetectionCache) (now : ℤ) (text : String) :
    Option DetectionResult × Option DetectionCache :=
  match oc with
  | none => (none, none)
  | some c =>
    let r := DetectionCache.get c now text
    (r.1, some r.2)

/-- Synchronous outcome of one `detect` call, up to its first suspension
point (`detector.ts`): the empty-input short-circuit, the not-loaded and
queue-full rejections, a cache hit, an immediate dispatch to an idle worker,
or an enqueue (after which the caller is suspended). -/
inductive DetectStep where
  | shortCircuitEmpty
  | notLoadedStep
  | cacheHitStep (cached : DetectionResult)
  | dispatchedStep (workerIdx : ℕ)
  | enqueuedStep
  | queueFullStep
deriving DecidableEq

/-- Pool-admission tail of `detect` (after validation and cache lookup):
`stats.totalRequests` is bumped (before the worker search, so it is bumped
even on the queue-full throw, which otherwise changes nothing), then an idle
worker receives the request immediately, or the request is enqueued when the
queue is strictly below `maxQueueSize`, or the call fails fast with the
queue-full error.  The `totalRequests` increment is written into each branch
so that the branch structure is match/if-topmost. -/
def detectAdmitPool (d : FastTextLanguageDetector) (now : ℤ) (text : String)
    (rid : ℕ) : DetectStep × FastTextLanguageDetector :=
  match findAvailIdx d.workers with
  | some i =>
    (DetectStep.dispatchedStep i,
     { d with workers := updateAt i markBusy d.workers,
              stats := { d.stats with totalRequests := d.stats.totalRequests + 1 } })
  | none =>
    if d.maxQueueSize ≤ d.requestQueue.length then
      (DetectStep.queueFullStep,
       { d with stats := { d.stats with totalRequests := d.stats.totalRequests + 1 } })
    else
      (DetectStep.enqueuedStep,
       { d with
           requestQueue := d.requestQueue ++ [⟨text, rid, now⟩],
           stats :=
             { d.stats with
                 totalRequests := d.stats.totalRequests + 1,
                 queuedRequests := d.stats.queuedRequests + 1 } })

/-- `detect` from `detector.ts`, up to its first suspension point.  The
`typeof text !== 'string'` type guard is subsumed by typing; `!text ||
text.trim().length === 0` is the empty/whitespace-only short-circuit, which
returns `{predictions: [], primary: null}` before the loaded check, the cache,
the statistics and the pool are ever touched. -/
def FastTextLanguageDetector.detectAdmit (d : FastTextLanguageDetector) (now : ℤ)
    (text : String) (rid : ℕ) : DetectStep × FastTextLanguageDetector :=
  if jsTrim text = "" then (DetectStep.shortCircuitEmpty, d)
  else if d.isLoaded = false then (DetectStep.notLoadedStep, d)
  else
    match (cacheGetOpt d.cache now text).1 with
    | some cached =>
      (DetectStep.cacheHitStep cached, { d with cache := (cacheGetOpt d.cache now text).2 })
    | none => detectAdmitPool { d with cache := (cacheGetOpt d.cache now text).2 } now text rid

/-- Return value of one whole `detect` call: a resolved result, a rejection,
or a suspension of the caller in the queue (the result then arrives through a
later `workerCompletes`). -/
inductive DetectReturn where
  | value (r : DetectionResult)
  | failure (e : DetectorError)
  | suspendedInQueue
deriving DecidableEq

/-- One whole `detect(text, options)` call on the paths that settle within
the call (`detector.ts`): admission as in `detectAdmit`, and on the
immediate-dispatch path the full worker round-trip, modelled with the
external process as the deterministic line `oracle` and the output arriving
in time.  After the worker settles: statistics update, queue drain, then the
caller's continuation stores the raw (pre-options) result under the exact
input text — only when a primary exists — and finally applies the options.
Both timestamps of the synchronous path are `now`, so the folded response
time is `0`. -/
def detectFull (g oracle : String → String) (d : FastTextLanguageDetector)
    (now : ℤ) (text : String) (options : DetectionOptions) (rid : ℕ) :
    DetectReturn × FastTextLanguageDetector :=
  match FastTextLanguageDetector.detectAdmit d now text rid with
  | (DetectStep.shortCircuitEmpty, d1) => (DetectReturn.value ⟨[], none⟩, d1)
  | (DetectStep.notLoadedStep, d1) => (DetectReturn.failure DetectorError.notLoaded, d1)
  | (DetectStep.cacheHitStep cached, d1) =>
    (DetectReturn.value (applyOptions g cached options), d1)
  | (DetectStep.queueFullStep, d1) =>
    (DetectReturn.failure (DetectorError.queueFull d.maxQueueSize), d1)
  | (DetectStep.enqueuedStep, d1) => (DetectReturn.suspendedInQueue, d1)
  | (DetectStep.dispatchedStep i, d1) =>
    let raw := workerOutput oracle text
    let d2 := (FastTextLanguageDetector.workerCompletes d1 i (WorkerOutcome.success raw) 0).1
    let d3 :=
      match d2.cache, raw.primary with
      | some c, some _ => { d2 with cache := some (DetectionCache.set c now text raw) }
      | _, _ => d2
    (DetectReturn.value (applyOptions g raw options), d3)

/-- The queue-clearing loop of `unload`: every pending request is shifted and
rejected with the shutting-down error. -/
def rejectAllQueued : List QueuedRequest → List Completion
  | [] => []
  | r :: rest => Completion.rejected r.reqId DetectorError.shuttingDown :: rejectAllQueued rest

/-- `unload` from `detector.ts`: the loaded flag is cleared first, every
queued request is rejected with the shutting-down error, each worker is
stopped and the worker array is emptied.  The statistics (including
`queuedRequests`) and the cache are not touched.  There is no failure path:
on a never-loaded detector the queue and worker list are already empty and
the call is a no-op apart from (re)clearing the flag. -/
def FastTextLanguageDetector.unload (d : FastTextLanguageDetector) :
    FastTextLanguageDetector × List Completion :=
  ({ d with isLoaded := false, requestQueue := [], workers := [] },
   rejectAllQueued d.requestQueue)

/-- A freshly started worker (`load` constructs `FastTextWorker(i, ...)` and
`start()` resolves after the grace delay with the process alive and the
worker flagged ready). -/
def mkWorker (i : ℕ) : FastTextWorker :=
  { id := i, isReady := true, isBusy := false, processedRequests := 0, processAlive := true }

/-- `load` from `detector.ts` on the success path (model file present,
binary found, every worker start resolves): `poolSize` workers are started,
the loaded flag and `stats.poolSize` are set, and queued requests are
processed.  An in-progress load rejects; an already-loaded pool is a warn
no-op. -/
def FastTextLanguageDetector.load (d : FastTextLanguageDetector) :
    Except DetectorError FastTextLanguageDetector :=
  if d.isLoading then Except.error DetectorError.alreadyLoading
  else if d.isLoaded then Except.ok d
  else
    Except.ok
      (FastTextLanguageDetector.processQueue
        { d with workers := (List.range d.poolSize).map mkWorker,
                 isLoaded := true,
                 stats := { d.stats with poolSize := d.poolSize } }).1

/-- `restartWorker` from `detector.ts` on the success path: a no-op when the
pool is unloaded (stale notification); otherwise the worker is stopped and
restarted (same identity, fresh live process, ready again) and the queue is
drained. -/
def FastTextLanguageDetector.restartWorkerOk (d : FastTextLanguageDetector)
    (workerId : ℕ) : FastTextLanguageDetector × List (ℕ × QueuedRequest) :=
  if d.isLoaded = false then (d, [])
  else
    FastTextLanguageDetector.processQueue
      { d with workers :=
          updateAt workerId (fun w => { w with isReady := true, processAlive := true }) d.workers }

lemma rejectAllQueued_eq_map (l : List QueuedRequest) :
    rejectAllQueued l =
      l.map (fun r => Completion.rejected r.reqId DetectorError.shuttingDown) := by
  induction l with
  | nil => rfl
  | cons r rest ih => simp [rejectAllQueued, ih]

lemma processQueueAux_spec (queue : List QueuedRequest) :
    ∀ ws qr,
      ((processQueueAux ws qr queue).2.2.2.map Prod.snd) ++
          (processQueueAux ws qr queue).2.2.1 = queue ∧
      (qr = queue.length →
        (processQueueAux ws qr queue).2.1 = (processQueueAux ws qr queue).2.2.1.length) ∧
      ((processQueueAux ws qr queue).2.2.1 ≠ [] →
        findAvailIdx (processQueueAux ws qr queue).1 = none) ∧
      (processQueueAux ws qr queue).2.2.1.length ≤ queue.length := by
  induction queue with
  | nil =>
    intro ws qr
    simp [processQueueAux]
  | cons req rest ih =>
    intro ws qr
    cases h : findAvailIdx ws with
    | none =>
      simp [processQueueAux, h]
    | some i =>
      have ihr := ih (updateAt i markBusy ws) (qr - 1)
      refine ⟨?_, ?_, ?_, ?_⟩
      · simp only [processQueueAux, h, List.map_cons, List.cons_append]
        rw [ihr.1]
      · intro hq
        simp only [processQueueAux, h]
        have : qr - 1 = rest.length := by
          simp [hq, List.length_cons]
        exact ihr.2.1 this
      · intro hne
        simp only [processQueueAux, h] at hne ⊢
        exact ihr.2.2.1 hne
      · simp only [processQueueAux, h, List.length_cons]
        exact Nat.le_succ_of_le ihr.2.2.2

lemma processQueue_order (d : FastTextLanguageDetector) :
    ((d.processQueue).2.map Prod.snd) ++ (d.processQueue).1.requestQueue =
      d.requestQueue :=
  (processQueueAux_spec d.requestQueue d.workers d.stats.queuedRequests).1

lemma processQueue_counter (d : FastTextLanguageDetector)
    (h : d.stats.queuedRequests = d.requestQueue.length) :
    (d.processQueue).1.stats.queuedRequests = (d.processQueue).1.requestQueue.length :=
  (processQueueAux_spec d.requestQueue d.workers d.stats.queuedRequests).2.1 h

lemma processQueue_drained (d : FastTextLanguageDetector)
    (h : (d.processQueue).1.requestQueue ≠ []) :
    findAvailIdx (d.processQueue).1.workers = none :=
  (processQueueAux_spec d.requestQueue d.workers d.stats.queuedRequests).2.2.1 h

lemma processQueue_len (d : FastTextLanguageDetector) :
    (d.processQueue).1.requestQueue.length ≤ d.requestQueue.length :=
  (processQueueAux_spec d.requestQueue d.workers d.stats.queuedRequests).2.2.2

/-- C3: `unload()` sets the loaded flag to false, rejects every currently
queued request with the shutting-down error (the completions are exactly the
rejections of the queued requests in order — none is dropped and none is
resolved), stops every worker and empties the worker set; on a never-loaded
detector (fresh from the constructor) it succeeds with no completions. -/
theorem C3_unload_spec :
    (∀ d : FastTextLanguageDetector,
      d.unload =
        ({ d with isLoaded := false, requestQueue := [], workers := [] },
         d.requestQueue.map
           (fun r => Completion.rejected r.reqId DetectorError.shuttingDown))) ∧
    (∀ options : DetectorOptions, ((mkDetector options).unload).2 = []) := by
  constructor
  · intro d
    unfold FastTextLanguageDetector.unload
    rw [rejectAllQueued_eq_map]
  · intro options
    rfl

/-- C9: empty or whitespace-only input short-circuits to
`{predictions: [], primary: null}` with the detector state unchanged — no
error, no cache read or write, no statistics change, no enqueue, no worker
touched — in every state, loaded or not. -/
theorem C9_empty_input (g oracle : String → String) (d : FastTextLanguageDetector)
    (now : ℤ) (text : String) (options : DetectionOptions) (rid : ℕ)
    (h : jsTrim text = "") :
    d.detectAdmit now text rid = (DetectStep.shortCircuitEmpty, d) ∧
    detectFull g oracle d now text options rid = (DetectReturn.value ⟨[], none⟩, d) := by
  have ha : d.detectAdmit now text rid = (DetectStep.shortCircuitEmpty, d) := by
    unfold FastTextLanguageDetector.detectAdmit
    rw [if_pos h]
  refine ⟨ha, ?_⟩
  unfold detectFull
  rw [ha]

theorem C9_empty_input_witness :
    jsTrim "   " = "" ∧
    ((mkDetector ⟨none, none, none, false, none, none⟩).detectAdmit 0 "   " 0 =
        (DetectStep.shortCircuitEmpty, mkDetector ⟨none, none, none, false, none, none⟩) ∧
      detectFull (fun s => s) (fun s => s) (mkDetector ⟨none, none, none, false, none, none⟩)
          0 "   " noOptions 0 =
        (DetectReturn.value ⟨[], none⟩, mkDetector ⟨none, none, none, false, none, none⟩)) :=
  ⟨by decide,
   C9_empty_input (fun s => s) (fun s => s) (mkDetector ⟨none, none, none, false, none, none⟩)
     0 "   " noOptions 0 (by decide)⟩

/-- C7: if the per-request timer fires before an output line arrives,
`worker.detect` fails with the timeout error, clears the busy flag, leaves
`processedRequests` untouched and the process alive, and emits no worker
event — and since the detector's restart path is wired only to the worker
error and exit events, a timeout alone never triggers `restartWorker`. -/
theorem C7_timeout_no_restart (w : FastTextWorker) (oracle : String → String)
    (text : String) (h1 : w.isReady = true) (h2 : w.isBusy = false)
    (h3 : w.processAlive = true) :
    w.detect oracle text DetectEvent.timeoutFired =
      (Except.error (WorkerError.timeout w.id), { w with isBusy := false }, []) ∧
    ({ w with isBusy := false } : FastTextWorker).processedRequests = w.processedRequests ∧
    ({ w with isBusy := false } : FastTextWorker).processAlive = true ∧
    triggersRestart [] = false := by
  refine ⟨?_, rfl, h3, rfl⟩
  unfold FastTextWorker.detect
  rw [h1, h2, h3]
  rfl

theorem C7_timeout_no_restart_witness :
    (⟨3, true, false, 7, true⟩ : FastTextWorker).detect (fun s => s) "hola"
        DetectEvent.timeoutFired =
      (Except.error (WorkerError.timeout 3), ⟨3, true, false, 7, true⟩, []) ∧
    (⟨3, true, false, 7, true⟩ : FastTextWorker).processedRequests = 7 ∧
    (⟨3, true, false, 7, true⟩ : FastTextWorker).processAlive = true ∧
    triggersRestart [] = false :=
  C7_timeout_no_restart ⟨3, true, false, 7, true⟩ (fun s => s) "hola" rfl rfl rfl

def enPred : LanguagePrediction := ⟨"en", some (9/10), none⟩

def frPred : LanguagePrediction := ⟨"fr", some (1/20), none⟩

def dePred : LanguagePrediction := ⟨"de", some (1/20), none⟩

/-- The spec's example result `[(en,0.9),(fr,0.05),(de,0.05)]` with `en` as
primary. -/
def exampleResult : DetectionResult := ⟨[enPred, frPred, dePred], some enPred⟩

/-- C5: `applyOptions` is exactly the composition threshold-filter, then
top-K truncation, then name enrichment, then only-primary collapse — in that
fixed order — with the returned primary the head of what survives; and on
`[(en,0.9),(fr,0.05),(de,0.05)]`: `{threshold:0.5}` keeps only `(en,0.9)`,
`{topK:2}` keeps the first two in original order, and `{returnAll:false}`
collapses to exactly `[primary]`. -/
theorem C5_applyOptions_order :
    (∀ (g : String → String) (r : DetectionResult) (o : DetectionOptions),
      applyOptions g r o =
        { predictions :=
            collapseStage r.primary o (nameStage g o (topKStage o (thresholdStage o r.predictions))),
          primary :=
            (collapseStage r.primary o
                (nameStage g o (topKStage o (thresholdStage o r.predictions)))).head? }) ∧
    (∀ g : String → String,
      applyOptions g exampleResult ⟨some (1/2), none, false, none⟩ = ⟨[enPred], some enPred⟩) ∧
    (∀ g : String → String,
      applyOptions g exampleResult ⟨none, some 2, false, none⟩ =
        ⟨[enPred, frPred], some enPred⟩) ∧
    (∀ g : String → String,
      applyOptions g exampleResult ⟨none, none, false, some false⟩ =
        ⟨[enPred], some enPred⟩) := by
  refine ⟨?_, ?_, ?_, ?_⟩
  · intro g r o
    rfl
  · intro g
    have hEn : jsGeConfidence (some ((9 : ℚ)/10)) (1/2) = true := by
      simp only [jsGeConfidence, decide_eq_true_eq]
      norm_num
    have hFr : jsGeConfidence (some ((1 : ℚ)/20)) (1/2) = false := by
      simp only [jsGeConfidence, decide_eq_false_iff_not]
      norm_num
    simp only [applyOptions, exampleResult, enPred, frPred, dePred, List.filter, hEn, hFr]
    rfl
  · intro g
    rfl
  · intro g
    rfl

/-- C8 counterexample: on the output line `__label__en abc` the token pair
has a non-numeric confidence token, which the claim says is dropped as
malformed; `parseResult` instead keeps the pair, with a `NaN` (modelled
`none`) confidence — so the returned sequence contains an ill-formed
prediction and is not empty. -/
theorem C8_parseResult_counterexample :
    parseResult "__label__en abc" = [⟨"en", none, none⟩] ∧
    (parseResult "__label__en abc").any (fun p => p.confidence.isNone) = true ∧
    parseResult "__label__en abc" ≠ [] :=
  ⟨by decide, by decide, by decide⟩

/-- The prediction built from one kept label/confidence token pair in
`parseResult`. -/
def mkParsedPrediction (label conf : String) : LanguagePrediction :=
  let languageCode := jsToLower (jsReplaceFirst label "__label__")
  ⟨if languageCode = "zh" then "chs" else languageCode, jsParseFloat conf, none⟩

/-- C8 amended: `parseResult` splits the line on whitespace runs and walks
the tokens in alternating label/confidence pairs; a pair is dropped only when
its label or confidence token is missing or empty; a kept pair has the first
occurrence of `__label__` removed from its label, is lower-cased, `zh` is
remapped to `chs`, and its confidence token goes through `parseFloat` — a
pair whose confidence token does not parse as a number is kept with a `NaN`
confidence rather than dropped. -/
theorem C8_parseResult_amended :
    (∀ s, parseResult s = parsePairs (jsSplitWs s)) ∧
    (∀ label conf rest,
      parsePairs (label :: conf :: rest) =
        (if label = "" ∨ conf = "" then [] else [mkParsedPrediction label conf]) ++
          parsePairs rest) ∧
    (∀ label, parsePairs [label] = []) ∧
    parsePairs [] = [] ∧
    parseResult "__label__en 0.9 __label__fr 0.05" =
      [⟨"en", some (9/10), none⟩, ⟨"fr", some (1/20), none⟩] ∧
    parseResult "__label__ZH 0.5" = [⟨"chs", some (1/2), none⟩] ∧
    parseResult "__label__en" = [] ∧
    parseResult "__label__de xyz" = [⟨"de", none, none⟩] := by
  refine ⟨fun s => rfl, fun label conf rest => rfl, fun label => rfl, rfl, ?_, ?_, by decide, by decide⟩
  · have e1 : parseResult "__label__en 0.9 __label__fr 0.05" =
        [⟨"en", jsParseFloat "0.9", none⟩, ⟨"fr", jsParseFloat "0.05", none⟩] := rfl
    have p1 : jsParseFloat "0.9" = some (9/10) := by
      have h : jsParseFloatParts "0.9" = some ⟨1, 0, 9, 1, 0⟩ := by decide
      rw [jsParseFloat, h]
      norm_num [floatVal]
    have p2 : jsParseFloat "0.05" = some (1/20) := by
      have h : jsParseFloatParts "0.05" = some ⟨1, 0, 5, 2, 0⟩ := by decide
      rw [jsParseFloat, h]
      norm_num [floatVal]
    rw [e1, p1, p2]
  · have e2 : parseResult "__label__ZH 0.5" = [⟨"chs", jsParseFloat "0.5", none⟩] := rfl
    have p3 : jsParseFloat "0.5" = some (1/2) := by
      have h : jsParseFloatParts "0.5" = some ⟨1, 0, 5, 1, 0⟩ := by decide
      rw [jsParseFloat, h]
      norm_num [floatVal]
    rw [e2, p3]

lemma jsMapSet_length_le (m : List (String × CacheEntry)) (k : String) (v : CacheEntry) :
    (jsMapSet m k v).length ≤ m.length + 1 := by
  unfold jsMapSet
  split
  · simp
  · simp

/-- C6 counterexample: `maxSize = 2`; after inserting `a` then `b` the cache
is at capacity with keys `[a, b]`; `set` on the already-present key `b`
(an overwrite that adds no new entry, which the claim says evicts nothing)
still evicts the structurally-oldest entry `a`, because the code checks
`size >= maxSize` before looking at whether the key exists. -/
theorem C6_cache_eviction_counterexample :
    ((((⟨[], 2, 1000⟩ : DetectionCache).set 1 "a" ⟨[], none⟩).set 2 "b"
          ⟨[], none⟩).cache.map Prod.fst = ["a", "b"] ∧
      jsMapGet ((((⟨[], 2, 1000⟩ : DetectionCache).set 1 "a" ⟨[], none⟩).set 2 "b"
          ⟨[], none⟩)).cache "b" ≠ none) ∧
    (((((⟨[], 2, 1000⟩ : DetectionCache).set 1 "a" ⟨[], none⟩).set 2 "b"
          ⟨[], none⟩).set 3 "b" ⟨[], none⟩).cache.map Prod.fst = ["b"] ∧
      jsMapGet (((((⟨[], 2, 1000⟩ : DetectionCache).set 1 "a" ⟨[], none⟩).set 2 "b"
          ⟨[], none⟩).set 3 "b" ⟨[], none⟩)).cache "a" = none) :=
  ⟨⟨by decide, by decide⟩, ⟨by decide, by decide⟩⟩

/-- C6 amended: `DetectionCache.set` evicts exactly when the size at call
time is at least `maxSize` — including when `text` is already present as a
key, in which case the oldest entry is still evicted even though the
overwrite adds no new entry — and (when the oldest key is a non-empty
string) the evicted entry is exactly the structurally-oldest one; no entry
is evicted while the size is strictly below `maxSize`; and with `maxSize ≥ 1`
and non-empty keys the cache never grows beyond `maxSize` entries. -/
theorem C6_cache_eviction_amended :
    (∀ (c : DetectionCache) (now : ℤ) (text : String) (r : DetectionResult),
      c.cache.length < c.maxSize →
      (c.set now text r).cache = jsMapSet c.cache text ⟨r, now⟩) ∧
    (∀ (c : DetectionCache) (now : ℤ) (text : String) (r : DetectionResult)
        (p : String × CacheEntry),
      c.maxSize ≤ c.cache.length → c.cache.head? = some p → p.1 ≠ "" →
      (c.set now text r).cache = jsMapSet c.cache.tail text ⟨r, now⟩) ∧
    (∀ (c : DetectionCache) (now : ℤ) (text : String) (r : DetectionResult),
      1 ≤ c.maxSize → (∀ q ∈ c.cache, q.1 ≠ "") → c.cache.length ≤ c.maxSize →
      (c.set now text r).cache.length ≤ c.maxSize) := by
  have hbelow : ∀ (c : DetectionCache) (now : ℤ) (text : String) (r : DetectionResult),
      c.cache.length < c.maxSize →
      (c.set now text r).cache = jsMapSet c.cache text ⟨r, now⟩ := by
    intro c now text r h
    unfold DetectionCache.set
    rw [if_neg (Nat.not_le.mpr h)]
  have hfull : ∀ (c : DetectionCache) (now : ℤ) (text : String) (r : DetectionResult)
      (p : String × CacheEntry),
      c.maxSize ≤ c.cache.length → c.cache.head? = some p → p.1 ≠ "" →
      (c.set now text r).cache = jsMapSet c.cache.tail text ⟨r, now⟩ := by
    intro c now text r p hle hhead hne
    unfold DetectionCache.set
    rw [if_pos hle]
    cases hc : c.cache with
    | nil => rw [hc] at hhead; cases hhead
    | cons q rest =>
      rw [hc] at hhead
      simp only [List.head?_cons, Option.some.injEq] at hhead
      subst hhead
      simp only [hc, List.head?_cons, List.tail_cons]
      rw [if_neg hne]
      unfold jsMapDelete
      rw [if_pos rfl]
  refine ⟨hbelow, hfull, ?_⟩
  intro c now text r hmax hkeys hlen
  rcases Nat.lt_or_ge c.cache.length c.maxSize with hlt | hge
  · rw [hbelow c now text r hlt]
    calc (jsMapSet c.cache text ⟨r, now⟩).length ≤ c.cache.length + 1 :=
          jsMapSet_length_le _ _ _
      _ ≤ c.maxSize := Nat.succ_le_of_lt hlt
  · cases hc : c.cache with
    | nil =>
      rw [hc] at hge
      simp at hge
      omega
    | cons q rest =>
      have hq : q.1 ≠ "" := hkeys q (by rw [hc]; exact List.mem_cons_self q rest)
      have hh : c.cache.head? = some q := by rw [hc]; rfl
      rw [hfull c now text r q hge hh hq]
      have : c.cache.tail.length + 1 = c.cache.length := by
        rw [hc]; rfl
      calc (jsMapSet c.cache.tail text ⟨r, now⟩).length ≤ c.cache.tail.length + 1 :=
            jsMapSet_length_le _ _ _
        _ = c.cache.length := this
        _ ≤ c.maxSize := hlen

theorem C6_cache_eviction_amended_witness :
    (2 : ℕ) ≤ ((⟨[("a", ⟨⟨[], none⟩, 1⟩), ("b", ⟨⟨[], none⟩, 2⟩)], 2, 1000⟩ :
        DetectionCache)).cache.length ∧
    ((⟨[("a", ⟨⟨[], none⟩, 1⟩), ("b", ⟨⟨[], none⟩, 2⟩)], 2, 1000⟩ :
        DetectionCache)).cache.head? = some ("a", ⟨⟨[], none⟩, 1⟩) ∧
    ("a" : String) ≠ "" ∧
    ((⟨[("a", ⟨⟨[], none⟩, 1⟩), ("b", ⟨⟨[], none⟩, 2⟩)], 2, 1000⟩ :
        DetectionCache).set 3 "b" ⟨[], none⟩).cache =
      jsMapSet [("b", ⟨⟨[], none⟩, 2⟩)] "b" ⟨⟨[], none⟩, 3⟩ :=
  ⟨by decide, by decide, by decide,
   C6_cache_eviction_amended.2.1
     ⟨[("a", ⟨⟨[], none⟩, 1⟩), ("b", ⟨⟨[], none⟩, 2⟩)], 2, 1000⟩ 3 "b" ⟨[], none⟩
     ("a", ⟨⟨[], none⟩, 1⟩) (by decide) (by decide) (by decide)⟩

/-- The spec scenario's detector: pool size 1, `maxQueueSize` 2, no cache,
loaded through the constructor and a successful `load()`. -/
def scenarioDetector : FastTextLanguageDetector :=
  match (mkDetector ⟨some 1, some 2, none, false, none, none⟩).load with
  | Except.ok d => d
  | Except.error _ => mkDetector ⟨some 1, some 2, none, false, none, none⟩

/-- C1: on a loaded pool with non-empty text, a cache miss, no available
worker and the queue already at `maxQueueSize`, admission fails immediately
with the queue-full error: the queue is untouched (only `totalRequests` and
the cache-lookup side effect change), so the caller never waits.  Admission
preserves `queue ≤ maxQueueSize` and draining only shrinks the queue, so the
queue never exceeds `maxQueueSize`.  Scenario: pool size 1, `maxQueueSize` 2,
4 simultaneous calls — exactly 1 dispatched, 2 enqueued, 1 rejected. -/
theorem C1_queueFull_failFast :
    (∀ (d : FastTextLanguageDetector) (now : ℤ) (text : String) (rid : ℕ),
      d.isLoaded = true → jsTrim text ≠ "" →
      (cacheGetOpt d.cache now text).1 = none →
      findAvailIdx d.workers = none →
      d.maxQueueSize ≤ d.requestQueue.length →
      d.detectAdmit now text rid =
        (DetectStep.queueFullStep,
         { d with cache := (cacheGetOpt d.cache now text).2,
                  stats := { d.stats with totalRequests := d.stats.totalRequests + 1 } })) ∧
    (∀ (d : FastTextLanguageDetector) (now : ℤ) (text : String) (rid : ℕ),
      d.requestQueue.length ≤ d.maxQueueSize →
      ((d.detectAdmit now text rid).2).requestQueue.length ≤ d.maxQueueSize) ∧
    (∀ d : FastTextLanguageDetector,
      (d.processQueue).1.requestQueue.length ≤ d.requestQueue.length) ∧
    ((scenarioDetector.detectAdmit 0 "t1" 1).1 = DetectStep.dispatchedStep 0 ∧
      (((scenarioDetector.detectAdmit 0 "t1" 1).2).detectAdmit 0 "t2" 2).1 =
        DetectStep.enqueuedStep ∧
      (((((scenarioDetector.detectAdmit 0 "t1" 1).2).detectAdmit 0 "t2" 2).2).detectAdmit
          0 "t3" 3).1 = DetectStep.enqueuedStep ∧
      (((((((scenarioDetector.detectAdmit 0 "t1" 1).2).detectAdmit 0 "t2" 2).2).detectAdmit
          0 "t3" 3).2).detectAdmit 0 "t4" 4).1 = DetectStep.queueFullStep ∧
      (((((((scenarioDetector.detectAdmit 0 "t1" 1).2).detectAdmit 0 "t2" 2).2).detectAdmit
          0 "t3" 3).2).detectAdmit 0 "t4" 4).2.requestQueue.length = 2) := by
  refine ⟨?_, ?_, ?_, by decide, by decide, by decide, by decide, by decide⟩
  · intro d now text rid hl ht hc hw hq
    unfold FastTextLanguageDetector.detectAdmit
    rw [if_neg ht, hl]
    rw [if_neg (show ¬(true = false) by decide)]
    rw [hc]
    unfold detectAdmitPool
    dsimp only
    rw [hw]
    dsimp only
    rw [if_pos hq]
  · intro d now text rid h
    unfold FastTextLanguageDetector.detectAdmit detectAdmitPool
    split
    · exact h
    split
    · exact h
    split
    · exact h
    split
    · exact h
    split
    · exact h
    next hlt =>
      dsimp only at hlt ⊢
      simp only [List.length_append, List.length_cons, List.length_nil]
      omega
  · intro d
    exact processQueue_len d

theorem C1_queueFull_failFast_witness :
    (⟨1, 2, 5000, [⟨0, true, true, 0, true⟩], [⟨"a", 1, 0⟩, ⟨"b", 2, 0⟩], true, false,
        initialStats, none⟩ : FastTextLanguageDetector).detectAdmit 0 "x" 9 =
      (DetectStep.queueFullStep,
       ⟨1, 2, 5000, [⟨0, true, true, 0, true⟩], [⟨"a", 1, 0⟩, ⟨"b", 2, 0⟩], true, false,
        { initialStats with totalRequests := 1 }, none⟩) :=
  C1_queueFull_failFast.1
    ⟨1, 2, 5000, [⟨0, true, true, 0, true⟩], [⟨"a", 1, 0⟩, ⟨"b", 2, 0⟩], true, false,
      initialStats, none⟩
    0 "x" 9 (by decide) (by decide) (by decide) (by decide) (by decide)

/-- C2 counterexample: a reachable trace (constructor, successful load with
pool size 1, one dispatched request, one queued request, then `unload`) ends
with `stats.queuedRequests = 1` while the request queue is empty — `unload`
rejected the one queued request without decrementing the counter, so the
claimed invariant `queuedRequests = pending count` (and in particular
"back to 0 after unload") fails. -/
theorem C2_queuedRequests_counterexample :
    ((((scenarioDetector.detectAdmit 0 "hello" 1).2).detectAdmit 0 "world" 2).2).requestQueue.length = 1 ∧
    ((((scenarioDetector.detectAdmit 0 "hello" 1).2).detectAdmit 0 "world" 2).2).stats.queuedRequests = 1 ∧
    (((((scenarioDetector.detectAdmit 0 "hello" 1).2).detectAdmit 0 "world" 2).2).unload).1.requestQueue.length = 0 ∧
    (((((scenarioDetector.detectAdmit 0 "hello" 1).2).detectAdmit 0 "world" 2).2).unload).1.stats.queuedRequests = 1 :=
  ⟨by decide, by decide, by decide, by decide⟩

lemma completeStats_queuedRequests (st : PoolStatistics) (o : WorkerOutcome)
    (rt : ℚ) : (completeStats st o rt).queuedRequests = st.queuedRequests := by
  cases o <;> rfl

/-- C2 amended: `stats.queuedRequests` grows by one on each enqueue and
shrinks by one each time `processQueue` dispatches a queued request, so
admission, queue draining and request completion all preserve the equality
`queuedRequests = |requestQueue|`; `unload`, however, empties the queue
(rejecting every queued request) without touching `queuedRequests`, so after
`unload()` rejects N queued requests the counter remains N, not 0. -/
theorem C2_queuedRequests_amended :
    (∀ (d : FastTextLanguageDetector) (now : ℤ) (text : String) (rid : ℕ),
      d.stats.queuedRequests = d.requestQueue.length →
      (d.detectAdmit now text rid).2.stats.queuedRequests =
        (d.detectAdmit now text rid).2.requestQueue.length) ∧
    (∀ d : FastTextLanguageDetector,
      d.stats.queuedRequests = d.requestQueue.length →
      (d.processQueue).1.stats.queuedRequests = (d.processQueue).1.requestQueue.length) ∧
    (∀ (d : FastTextLanguageDetector) (i : ℕ) (o : WorkerOutcome) (rt : ℚ),
      d.stats.queuedRequests = d.requestQueue.length →
      (d.workerCompletes i o rt).1.stats.queuedRequests =
        (d.workerCompletes i o rt).1.requestQueue.length) ∧
    (∀ d : FastTextLanguageDetector,
      (d.unload).1.stats.queuedRequests = d.stats.queuedRequests ∧
      (d.unload).1.requestQueue = []) := by
  refine ⟨?_, ?_, ?_, fun d => ⟨rfl, rfl⟩⟩
  · intro d now text rid h
    unfold FastTextLanguageDetector.detectAdmit detectAdmitPool
    split
    · exact h
    split
    · exact h
    split
    · exact h
    split
    · exact h
    split
    · exact h
    · dsimp only
      simp only [List.length_append, List.length_cons, List.length_nil]
      omega
  · intro d h
    exact processQueue_counter d h
  · intro d i o rt h
    unfold FastTextLanguageDetector.workerCompletes
    apply processQueue_counter
    dsimp only
    rw [completeStats_queuedRequests]
    exact h

theorem C2_queuedRequests_amended_witness :
    (⟨1, 2, 5000, [⟨0, true, true, 0, true⟩], [⟨"q", 5, 0⟩], true, false,
        { initialStats with queuedRequests := 1 }, none⟩ :
      FastTextLanguageDetector).stats.queuedRequests =
      (⟨1, 2, 5000, [⟨0, true, true, 0, true⟩], [⟨"q", 5, 0⟩], true, false,
          { initialStats with queuedRequests := 1 }, none⟩ :
        FastTextLanguageDetector).requestQueue.length ∧
    ((⟨1, 2, 5000, [⟨0, true, true, 0, true⟩], [⟨"q", 5, 0⟩], true, false,
          { initialStats with queuedRequests := 1 }, none⟩ :
        FastTextLanguageDetector).detectAdmit 0 "y" 7).2.stats.queuedRequests =
      ((⟨1, 2, 5000, [⟨0, true, true, 0, true⟩], [⟨"q", 5, 0⟩], true, false,
          { initialStats with queuedRequests := 1 }, none⟩ :
        FastTextLanguageDetector).detectAdmit 0 "y" 7).2.requestQueue.length :=
  ⟨by decide,
   C2_queuedRequests_amended.1
     ⟨1, 2, 5000, [⟨0, true, true, 0, true⟩], [⟨"q", 5, 0⟩], true, false,
       { initialStats with queuedRequests := 1 }, none⟩ 0 "y" 7 (by decide)⟩

/-- C4: queued requests leave the queue strictly from the front —
`processQueue` dispatches a prefix of the queue, in order, leaving the rest
as the new queue — while admission either leaves the queue unchanged or
appends the new request at the back; a drain stops only when the queue is
empty or no worker is available; and both request completion and a
successful worker restart drain through the same front-first `processQueue`.
Together these give FIFO dispatch: if A is enqueued before B, A is
dispatched no later than B. -/
theorem C4_fifo_dispatch :
    (∀ d : FastTextLanguageDetector,
      ((d.processQueue).2.map Prod.snd) ++ (d.processQueue).1.requestQueue =
        d.requestQueue) ∧
    (∀ (d : FastTextLanguageDetector) (now : ℤ) (text : String) (rid : ℕ),
      (d.detectAdmit now text rid).2.requestQueue = d.requestQueue ∨
      (d.detectAdmit now text rid).2.requestQueue =
        d.requestQueue ++ [⟨text, rid, now⟩]) ∧
    (∀ d : FastTextLanguageDetector,
      (d.processQueue).1.requestQueue ≠ [] →
      findAvailIdx (d.processQueue).1.workers = none) ∧
    (∀ (d : FastTextLanguageDetector) (i : ℕ) (o : WorkerOutcome) (rt : ℚ),
      ((d.workerCompletes i o rt).2.map Prod.snd) ++
          (d.workerCompletes i o rt).1.requestQueue = d.requestQueue) ∧
    (∀ (d : FastTextLanguageDetector) (wid : ℕ),
      d.isLoaded = true →
      ((d.restartWorkerOk wid).2.map Prod.snd) ++
          (d.restartWorkerOk wid).1.requestQueue = d.requestQueue) := by
  refine ⟨processQueue_order, ?_, processQueue_drained, ?_, ?_⟩
  · intro d now text rid
    unfold FastTextLanguageDetector.detectAdmit detectAdmitPool
    split
    · exact Or.inl rfl
    split
    · exact Or.inl rfl
    split
    · exact Or.inl rfl
    split
    · exact Or.inl rfl
    split
    · exact Or.inl rfl
    · exact Or.inr rfl
  · intro d i o rt
    unfold FastTextLanguageDetector.workerCompletes
    exact processQueue_order _
  · intro d wid hl
    unfold FastTextLanguageDetector.restartWorkerOk
    rw [hl]
    rw [if_neg (show ¬(true = false) by decide)]
    exact processQueue_order _

theorem C4_fifo_dispatch_witness :
    ((⟨1, 2, 5000, [], [⟨"r", 1, 0⟩], true, false,
          { initialStats with queuedRequests := 1 }, none⟩ :
        FastTextLanguageDetector).processQueue).1.requestQueue ≠ [] ∧
    findAvailIdx
        ((⟨1, 2, 5000, [], [⟨"r", 1, 0⟩], true, false,
            { initialStats with queuedRequests := 1 }, none⟩ :
          FastTextLanguageDetector).processQueue).1.workers = none :=
  ⟨by decide,
   C4_fifo_dispatch.2.2.1
     ⟨1, 2, 5000, [], [⟨"r", 1, 0⟩], true, false,
       { initialStats with queuedRequests := 1 }, none⟩ (by decide)⟩

/-- Net worker-state change over one successful immediate round-trip:
`markBusy` from the dispatch followed by the success completion. -/
def clearBusyBump (w : FastTextWorker) : FastTextWorker :=
  { w with isBusy := false, processedRequests := w.processedRequests + 1 }

lemma updateAt_updateAt (i : ℕ) (f g : FastTextWorker → FastTextWorker) :
    ∀ l : List FastTextWorker, updateAt i g (updateAt i f l) = updateAt i (fun w => g (f w)) l := by
  induction i with
  | zero =>
    intro l
    cases l <;> rfl
  | succ n ih =>
    intro l
    cases l with
    | nil => rfl
    | cons w ws =>
      simp only [updateAt, ih ws]

lemma findAvailIdx_clearBusyBump :
    ∀ (ws : List FastTextWorker) (i : ℕ), findAvailIdx ws = some i →
      findAvailIdx (updateAt i clearBusyBump ws) = some i := by
  intro ws
  induction ws with
  | nil => intro i h; cases h
  | cons w rest ih =>
    intro i h
    by_cases ha : availableWorker w = true
    · rw [findAvailIdx, if_pos ha] at h
      injection h with h0
      subst h0
      have hready : w.isReady = true := by
        unfold availableWorker at ha
        exact ((Bool.and_eq_true _ _).mp ha).1
      have hr : availableWorker (clearBusyBump w) = true := by
        show (w.isReady && !false) = true
        rw [hready]
        rfl
      rw [show updateAt 0 clearBusyBump (w :: rest) = clearBusyBump w :: rest from rfl]
      rw [findAvailIdx, if_pos hr]
    · rw [findAvailIdx, if_neg ha] at h
      cases hj : findAvailIdx rest with
      | none => rw [hj] at h; cases h
      | some j =>
        rw [hj] at h
        simp only [Option.map_some', Option.some.injEq] at h
        subst h
        rw [show updateAt (j + 1) clearBusyBump (w :: rest) =
              w :: updateAt j clearBusyBump rest from rfl]
        rw [findAvailIdx, if_neg ha, ih j hj]
        rfl

lemma cacheSet_empty (mS : ℕ) (ttl now : ℤ) (text : String) (r : DetectionResult) :
    (⟨[], mS, ttl⟩ : DetectionCache).set now text r = ⟨[(text, ⟨r, now⟩)], mS, ttl⟩ := by
  unfold DetectionCache.set
  dsimp only
  split <;> rfl

lemma detectAdmit_fresh (pS mQ : ℕ) (tO : ℤ) (ws : List FastTextWorker)
    (st : PoolStatistics) (mS : ℕ) (ttl now : ℤ) (text : String) (rid : ℕ) (i : ℕ)
    (ht : jsTrim text ≠ "") (hav : findAvailIdx ws = some i) :
    FastTextLanguageDetector.detectAdmit
        ⟨pS, mQ, tO, ws, [], true, false, st, some ⟨[], mS, ttl⟩⟩ now text rid =
      (DetectStep.dispatchedStep i,
       ⟨pS, mQ, tO, updateAt i markBusy ws, [], true, false,
        { st with totalRequests := st.totalRequests + 1 }, some ⟨[], mS, ttl⟩⟩) := by
  unfold FastTextLanguageDetector.detectAdmit
  rw [if_neg ht]
  rw [if_neg (show ¬((⟨pS, mQ, tO, ws, [], true, false, st, some ⟨[], mS, ttl⟩⟩ :
        FastTextLanguageDetector).isLoaded = false) from fun h => Bool.noConfusion h)]
  change detectAdmitPool ⟨pS, mQ, tO, ws, [], true, false, st, some ⟨[], mS, ttl⟩⟩ now text rid = _
  unfold detectAdmitPool
  dsimp only
  rw [hav]

lemma detectFull_fresh (g oracle : String → String) (pS mQ : ℕ) (tO : ℤ)
    (ws : List FastTextWorker) (st : PoolStatistics) (mS : ℕ) (ttl now : ℤ)
    (text : String) (options : DetectionOptions) (rid : ℕ) (i : ℕ)
    (ht : jsTrim text ≠ "") (hav : findAvailIdx ws = some i) :
    detectFull g oracle ⟨pS, mQ, tO, ws, [], true, false, st, some ⟨[], mS, ttl⟩⟩
        now text options rid =
      (DetectReturn.value (applyOptions g (workerOutput oracle text) options),
       ⟨pS, mQ, tO, updateAt i clearBusyBump ws, [], true, false,
        completeStats { st with totalRequests := st.totalRequests + 1 }
          (WorkerOutcome.success (workerOutput oracle text)) 0,
        match (workerOutput oracle text).primary with
        | some _ => some ⟨[(text, ⟨workerOutput oracle text, now⟩)], mS, ttl⟩
        | none => some ⟨[], mS, ttl⟩⟩) := by
  have hcomp : updateAt i (completeWorkerState (WorkerOutcome.success (workerOutput oracle text)))
      (updateAt i markBusy ws) = updateAt i clearBusyBump ws := by
    rw [updateAt_updateAt]
    rfl
  unfold detectFull
  rw [detectAdmit_fresh pS mQ tO ws st mS ttl now text rid i ht hav]
  dsimp only
  unfold FastTextLanguageDetector.workerCompletes FastTextLanguageDetector.processQueue
  dsimp only [processQueueAux]
  rw [hcomp]
  cases hp : (workerOutput oracle text).primary with
  | none =>
    dsimp only
  | some p =>
    dsimp only
    rw [cacheSet_empty]

lemma detectFull_hit (g oracle : String → String) (pS mQ : ℕ) (tO : ℤ)
    (ws : List FastTextWorker) (st : PoolStatistics) (mS : ℕ) (ttl now t0 : ℤ)
    (text : String) (options : DetectionOptions) (rid : ℕ) (raw : DetectionResult)
    (ht : jsTrim text ≠ "") (httl : ¬(ttl < now - t0)) :
    detectFull g oracle
        ⟨pS, mQ, tO, ws, [], true, false, st, some ⟨[(text, ⟨raw, t0⟩)], mS, ttl⟩⟩
        now text options rid =
      (DetectReturn.value (applyOptions g raw options),
       ⟨pS, mQ, tO, ws, [], true, false, st, some ⟨[(text, ⟨raw, t0⟩)], mS, ttl⟩⟩) := by
  have hget : cacheGetOpt (some ⟨[(text, ⟨raw, t0⟩)], mS, ttl⟩) now text =
      (some raw, some ⟨[(text, ⟨raw, t0⟩)], mS, ttl⟩) := by
    unfold cacheGetOpt DetectionCache.get jsMapGet
    simp only [List.find?, decide_True]
    rw [if_neg httl]
  unfold detectFull FastTextLanguageDetector.detectAdmit
  rw [if_neg ht]
  rw [if_neg (show ¬((⟨pS, mQ, tO, ws, [], true, false, st,
        some ⟨[(text, ⟨raw, t0⟩)], mS, ttl⟩⟩ :
        FastTextLanguageDetector).isLoaded = false) from fun h => Bool.noConfusion h)]
  dsimp only
  rw [hget]

/-- C10: starting from a loaded detector with an empty cache and an idle
worker, a `detect` miss returns the options-processed result, stores the raw
(pre-options) result keyed by the exact input text — and only when a primary
prediction exists — and a second `detect` on the same text with any other
option set (within the TTL) returns exactly what it would return against an
empty cache: options are re-applied on every hit to the stored raw result,
and the worker oracle is deterministic, so caching is transparent. -/
theorem C10_cache_transparency (g oracle : String → String) (pS mQ : ℕ) (tO : ℤ)
    (ws : List FastTextWorker) (st : PoolStatistics) (mS : ℕ) (ttl t1 t2 : ℤ)
    (text : String) (o1 o2 : DetectionOptions) (r1 r2 : ℕ) (i : ℕ)
    (ht : jsTrim text ≠ "") (hav : findAvailIdx ws = some i) (httl : t2 - t1 ≤ ttl) :
    (detectFull g oracle ⟨pS, mQ, tO, ws, [], true, false, st, some ⟨[], mS, ttl⟩⟩
        t1 text o1 r1).1 =
      DetectReturn.value (applyOptions g (workerOutput oracle text) o1) ∧
    ((workerOutput oracle text).primary.isSome = true →
      (detectFull g oracle ⟨pS, mQ, tO, ws, [], true, false, st, some ⟨[], mS, ttl⟩⟩
          t1 text o1 r1).2.cache =
        some ⟨[(text, ⟨workerOutput oracle text, t1⟩)], mS, ttl⟩) ∧
    ((workerOutput oracle text).primary = none →
      (detectFull g oracle ⟨pS, mQ, tO, ws, [], true, false, st, some ⟨[], mS, ttl⟩⟩
          t1 text o1 r1).2.cache = some ⟨[], mS, ttl⟩) ∧
    (detectFull g oracle
        (detectFull g oracle ⟨pS, mQ, tO, ws, [], true, false, st, some ⟨[], mS, ttl⟩⟩
            t1 text o1 r1).2 t2 text o2 r2).1 =
      (detectFull g oracle ⟨pS, mQ, tO, ws, [], true, false, st, some ⟨[], mS, ttl⟩⟩
          t2 text o2 r2).1 := by
  have h1 := detectFull_fresh g oracle pS mQ tO ws st mS ttl t1 text o1 r1 i ht hav
  refine ⟨by rw [h1], ?_, ?_, ?_⟩
  · intro hsome
    rw [h1]
    cases hp : (workerOutput oracle text).primary with
    | none => rw [hp] at hsome; simp at hsome
    | some p => rfl
  · intro hnone
    rw [h1, hnone]
  · have hav2 := findAvailIdx_clearBusyBump ws i hav
    rw [h1]
    cases hp : (workerOutput oracle text).primary with
    | none =>
      dsimp only
      rw [detectFull_fresh g oracle pS mQ tO (updateAt i clearBusyBump ws) _ mS ttl t2
            text o2 r2 i ht hav2]
      rw [detectFull_fresh g oracle pS mQ tO ws st mS ttl t2 text o2 r2 i ht hav]
    | some p =>
      dsimp only
      rw [detectFull_hit g oracle pS mQ tO (updateAt i clearBusyBump ws) _ mS ttl t2 t1
            text o2 r2 (workerOutput oracle text) ht (by omega)]
      rw [detectFull_fresh g oracle pS mQ tO ws st mS ttl t2 text o2 r2 i ht hav]

theorem C10_cache_transparency_witness :
    jsTrim "hei" ≠ "" ∧ findAvailIdx [⟨0, true, false, 0, true⟩] = some 0 ∧
    ((5 : ℤ) - 0 ≤ 1000) ∧
    ((detectFull (fun s => s) (fun _ => "__label__en abc")
        ⟨1, 2, 5000, [⟨0, true, false, 0, true⟩], [], true, false, initialStats,
          some ⟨[], 10, 1000⟩⟩ 0 "hei" noOptions 1).1 =
      DetectReturn.value (applyOptions (fun s => s)
        (workerOutput (fun _ => "__label__en abc") "hei") noOptions) ∧
    ((workerOutput (fun _ => "__label__en abc") "hei").primary.isSome = true →
      (detectFull (fun s => s) (fun _ => "__label__en abc")
          ⟨1, 2, 5000, [⟨0, true, false, 0, true⟩], [], true, false, initialStats,
            some ⟨[], 10, 1000⟩⟩ 0 "hei" noOptions 1).2.cache =
        some ⟨[("hei", ⟨workerOutput (fun _ => "__label__en abc") "hei", 0⟩)], 10, 1000⟩) ∧
    ((workerOutput (fun _ => "__label__en abc") "hei").primary = none →
      (detectFull (fun s => s) (fun _ => "__label__en abc")
          ⟨1, 2, 5000, [⟨0, true, false, 0, true⟩], [], true, false, initialStats,
            some ⟨[], 10, 1000⟩⟩ 0 "hei" noOptions 1).2.cache = some ⟨[], 10, 1000⟩) ∧
    (detectFull (fun s => s) (fun _ => "__label__en abc")
        (detectFull (fun s => s) (fun _ => "__label__en abc")
            ⟨1, 2, 5000, [⟨0, true, false, 0, true⟩], [], true, false, initialStats,
              some ⟨[], 10, 1000⟩⟩ 0 "hei" noOptions 1).2 5 "hei" noOptions 2).1 =
      (detectFull (fun s => s) (fun _ => "__label__en abc")
          ⟨1, 2, 5000, [⟨0, true, false, 0, true⟩], [], true, false, initialStats,
            some ⟨[], 10, 1000⟩⟩ 5 "hei" noOptions 2).1) :=
  ⟨by decide, by decide, by decide,
   C10_cache_transparency (fun s => s) (fun _ => "__label__en abc") 1 2 5000
     [⟨0, true, false, 0, true⟩] initialStats 10 1000 0 5 "hei" noOptions noOptions 1 2 0
     (by decide) (by decide) (by decide)⟩
